import Mathlib

/-!
# Verification of the thor Lightning Address service

A shallow embedding of the core of `yfaming/thor`: the LUD-06/LUD-16
metadata generation (`generate_metadata` in `src/http_server.rs`), the
SHA-256 description-hash computation, the two HTTP handlers
(`get_lnurlp_info` and `create_invoice`), the error types of
`src/error.rs`, and the configuration validation of `src/config.rs`.

Conventions of the embedding:
* `anyhow::Error` is modelled as the `String` produced by its `Display`
  implementation (the only observation the program makes of it).
* A wallet backend (`Box<dyn InvoiceCreator>`) is a value of `Backend`:
  an opaque function from `(amount_msat, description_hash)` to a fallible
  invoice string, mirroring the `InvoiceCreator` trait.
* The random shuffle `creators.shuffle(&mut rand::rng())` is modelled by
  an explicit `shuffle` function parameter; theorems that need it assume
  the shuffle output is a permutation of its input.
* Machine integers (`u64`) are `Nat`; overflow is irrelevant on every
  path the claims touch except SHA-256, where arithmetic is reduced
  `% 2 ^ 32` (resp. `% 2 ^ 64` for the message length) exactly where the
  Rust `bitcoin_hashes` implementation wraps.
* The `unreachable!()` arm of `create_invoice` is modelled by returning
  `none` (a panic); every normal outcome is `some _`.
-/

/-! ## JSON serialization (the fragment of serde_json the program uses)

`serde_json::to_string` produces compact JSON: no whitespace, `,` and `:`
separators, strings escaped with `\"`, `\\`, `\b`, `\t`, `\n`, `\f`, `\r`
and `\u00XX` (lower-case hex) for the remaining control characters;
non-ASCII characters are written raw. -/

/-- Lower-case hexadecimal digit, as used by serde_json's `\u00XX` escapes
and by the `Display` of `bitcoin_hashes::Sha256`. -/
def hexDigit (n : Nat) : Char :=
  if n < 10 then Char.ofNat (48 + n) else Char.ofNat (87 + n % 16)

/-- serde_json's escaping of one character inside a JSON string. -/
def escChar (c : Char) : List Char :=
  if c = '"' then ['\\', '"']
  else if c = '\\' then ['\\', '\\']
  else if c.toNat = 8 then ['\\', 'b']
  else if c.toNat = 9 then ['\\', 't']
  else if c.toNat = 10 then ['\\', 'n']
  else if c.toNat = 12 then ['\\', 'f']
  else if c.toNat = 13 then ['\\', 'r']
  else if c.toNat < 32 then
    ['\\', 'u', '0', '0', hexDigit (c.toNat / 16), hexDigit (c.toNat % 16)]
  else [c]

/-- serde_json's escaping of the body of a JSON string. -/
def jsonEscape (s : String) : String :=
  String.mk (s.data.map escChar).flatten

/-- A JSON string literal: quoted, escaped body. -/
def renderJsonString (s : String) : String :=
  "\"" ++ jsonEscape s ++ "\""

/-- A JSON array of strings, compact form. -/
def renderStringArray (xs : List String) : String :=
  "[" ++ String.intercalate "," (xs.map renderJsonString) ++ "]"

/-- A JSON array of arrays of strings, compact form: the shape of the
LUD-16 metadata value built by `serde_json::json!` in `generate_metadata`. -/
def renderArrayOfArrays (xss : List (List String)) : String :=
  "[" ++ String.intercalate "," (xss.map renderStringArray) ++ "]"

/-! ## SHA-256 (`bitcoin_hashes::Sha256`)

A byte is a `Nat < 256`, a word a `Nat < 2 ^ 32`. `Display` of the digest
is the 32 bytes in emission order, lower-case hex. -/

/-- Right rotation of a 32-bit word. -/
def rotr32 (k x : Nat) : Nat :=
  ((x >>> k) ||| (x <<< (32 - k))) % 2 ^ 32

/-- Bitwise complement of a 32-bit word. -/
def not32 (x : Nat) : Nat := x ^^^ (2 ^ 32 - 1)

/-- The SHA-256 round constants. -/
def k256 : List Nat :=
  [1116352408, 1899447441, 3049323471, 3921009573, 961987163,
   1508970993, 2453635748, 2870763221, 3624381080, 310598401,
   607225278, 1426881987, 1925078388, 2162078206, 2614888103,
   3248222580, 3835390401, 4022224774, 264347078, 604807628,
   770255983, 1249150122, 1555081692, 1996064986, 2554220882,
   2821834349, 2952996808, 3210313671, 3336571891, 3584528711,
   113926993, 338241895, 666307205, 773529912, 1294757372,
   1396182291, 1695183700, 1986661051, 2177026350, 2456956037,
   2730485921, 2820302411, 3259730800, 3345764771, 3516065817,
   3600352804, 4094571909, 275423344, 430227734, 506948616,
   659060556, 883997877, 958139571, 1322822218, 1537002063,
   1747873779, 1955562222, 2024104815, 2227730452, 2361852424,
   2428436474, 2756734187, 3204031479, 3329325298]

/-- The SHA-256 initial hash state. -/
def h256init : List Nat :=
  [1779033703, 3144134277, 1013904242, 2773480762,
   1359893119, 2600822924, 528734635, 1541459225]

/-- SHA-256 padding: append `0x80`, zero bytes to 56 mod 64, then the
bit length as a 64-bit big-endian integer. -/
def sha256pad (msg : List Nat) : List Nat :=
  let len := msg.length
  let zeros := (120 - (len + 1) % 64) % 64
  let bitLen := (len * 8) % 2 ^ 64
  msg ++ [0x80] ++ List.replicate zeros 0 ++
    ((List.range 8).map fun i => (bitLen >>> ((7 - i) * 8)) % 256)

/-- Group bytes into big-endian 32-bit words. -/
def bytesToWords : List Nat → List Nat
  | a :: b :: c :: d :: rest => (((a * 256 + b) * 256 + c) * 256 + d) :: bytesToWords rest
  | _ => []

/-- Group a word stream into 16-word blocks (the padded stream is always
a multiple of 16 words; a ragged tail is dropped). -/
def toBlocks : List Nat → List (List Nat)
  | w0 :: w1 :: w2 :: w3 :: w4 :: w5 :: w6 :: w7 ::
      w8 :: w9 :: w10 :: w11 :: w12 :: w13 :: w14 :: w15 :: rest =>
    [w0, w1, w2, w3, w4, w5, w6, w7, w8, w9, w10, w11, w12, w13, w14, w15] ::
      toBlocks rest
  | _ => []

/-- The SHA-256 message schedule: extend 16 words to 64. -/
def msgSchedule (block : List Nat) : List Nat :=
  (List.range 48).foldl
    (fun w _ =>
      let n := w.length
      let s0 :=
        rotr32 7 (w.getD (n - 15) 0) ^^^ rotr32 18 (w.getD (n - 15) 0) ^^^
          (w.getD (n - 15) 0 >>> 3)
      let s1 :=
        rotr32 17 (w.getD (n - 2) 0) ^^^ rotr32 19 (w.getD (n - 2) 0) ^^^
          (w.getD (n - 2) 0 >>> 10)
      w ++ [(w.getD (n - 16) 0 + s0 + w.getD (n - 7) 0 + s1) % 2 ^ 32])
    block

/-- One SHA-256 compression round. -/
def sha256Round (w : List Nat) (st : List Nat) (i : Nat) : List Nat :=
  match st with
  | [a, b, c, d, e, f, g, h] =>
    let s1 := rotr32 6 e ^^^ rotr32 11 e ^^^ rotr32 25 e
    let ch := (e &&& f) ^^^ (not32 e &&& g)
    let t1 := (h + s1 + ch + k256.getD i 0 + w.getD i 0) % 2 ^ 32
    let s0 := rotr32 2 a ^^^ rotr32 13 a ^^^ rotr32 22 a
    let maj := (a &&& b) ^^^ (a &&& c) ^^^ (b &&& c)
    let t2 := (s0 + maj) % 2 ^ 32
    [(t1 + t2) % 2 ^ 32, a, b, c, (d + t1) % 2 ^ 32, e, f, g]
  | _ => st

/-- SHA-256 compression of one 16-word block into the running state. -/
def compressBlock (st : List Nat) (block : List Nat) : List Nat :=
  let w := msgSchedule block
  let f := (List.range 64).foldl (sha256Round w) st
  match st, f with
  | [h0, h1, h2, h3, h4, h5, h6, h7], [a, b, c, d, e, f0, g, h] =>
    [(h0 + a) % 2 ^ 32, (h1 + b) % 2 ^ 32, (h2 + c) % 2 ^ 32, (h3 + d) % 2 ^ 32,
     (h4 + e) % 2 ^ 32, (h5 + f0) % 2 ^ 32, (h6 + g) % 2 ^ 32, (h7 + h) % 2 ^ 32]
  | _, _ => st

/-- SHA-256 of a byte list, as the eight 32-bit state words. -/
def sha256Words (msg : List Nat) : List Nat :=
  (toBlocks (bytesToWords (sha256pad msg))).foldl compressBlock h256init

/-- SHA-256 of a byte list, as the 32 digest bytes in emission order. -/
def sha256Bytes (msg : List Nat) : List Nat :=
  ((sha256Words msg).map fun w =>
    [(w >>> 24) % 256, (w >>> 16) % 256, (w >>> 8) % 256, w % 256]).flatten

/-- Lower-case hex of a byte list (the `Display` of a `Sha256` digest). -/
def bytesToHex (bs : List Nat) : String :=
  String.mk (bs.foldr (fun b acc => hexDigit (b / 16 % 16) :: hexDigit (b % 16) :: acc) [])

/-- UTF-8 encoding of one Unicode scalar value. -/
def utf8EncodeChar (c : Char) : List Nat :=
  let n := c.toNat
  if n < 0x80 then [n]
  else if n < 0x800 then [0xc0 + n / 64, 0x80 + n % 64]
  else if n < 0x10000 then [0xe0 + n / 4096, 0x80 + n / 64 % 64, 0x80 + n % 64]
  else [0xf0 + n / 262144, 0x80 + n / 4096 % 64, 0x80 + n / 64 % 64, 0x80 + n % 64]

/-- UTF-8 bytes of a string (`str::as_bytes`). -/
def utf8Bytes (s : String) : List Nat :=
  (s.data.map utf8EncodeChar).flatten

/-- `format!("{}", Sha256::hash(s.as_bytes()))`: the hex-encoded SHA-256
digest of the UTF-8 bytes of `s`. -/
def sha256HexStr (s : String) : String :=
  bytesToHex (sha256Bytes (utf8Bytes s))

/-! ## `src/error.rs` -/

/-- The LUD-06 structured error body (`Lud06Error` in `src/error.rs`):
serde serializes it as the two-field object
`\x7b"status": ..., "reason": ...\x7d`. -/
structure Lud06Error where
  status : String
  reason : String
  deriving DecidableEq, Repr

/-- `Lud06Error::new(reason)`: status is always the literal `"ERROR"`. -/
def Lud06Error.new (reason : String) : Lud06Error :=
  { status := "ERROR", reason := reason }

/-- `impl From<anyhow::Error> for Lud06Error`: status `"ERROR"`, reason the
error's `Display` output (`e.to_string()`). -/
def lud06ErrorFromAnyhow (e : String) : Lud06Error :=
  { status := "ERROR", reason := e }

/-- `HttpError` in `src/error.rs`: an HTTP status code paired with a
structured error body. Status codes are their numeric value. -/
structure HttpError where
  status_code : Nat
  e : Lud06Error
  deriving DecidableEq, Repr

/-- `HttpError::new`. -/
def HttpError.new (status_code : Nat) (e : Lud06Error) : HttpError :=
  { status_code := status_code, e := e }

/-- `impl From<anyhow::Error> for HttpError`: internal server error (500)
wrapping the converted `Lud06Error`. -/
def httpErrorFromAnyhow (e : String) : HttpError :=
  HttpError.new 500 (lud06ErrorFromAnyhow e)

/-- An HTTP response as the handlers' callers observe it: status code and
body text. -/
structure HttpResponse where
  status : Nat
  body : String
  deriving DecidableEq, Repr

/-- serde_json serialization of a `Lud06Error` (field order `status`,
`reason`, as declared in the Rust struct). -/
def renderLud06 (e : Lud06Error) : String :=
  "\x7b\"status\":" ++ renderJsonString e.status ++
    ",\"reason\":" ++ renderJsonString e.reason ++ "\x7d"

/-- `impl IntoResponse for HttpError`: JSON body of the `Lud06Error`, with
the response status overwritten by `status_code`. -/
def HttpError.into_response (he : HttpError) : HttpResponse :=
  { status := he.status_code, body := renderLud06 he.e }

/-! ## Backends (`src/invoice_creator.rs`, `src/invoice_creator/nwc.rs`) -/

/-- A wallet backend, i.e. a `Box<dyn InvoiceCreator>`:
`create_invoice(amount_msat, description_hash)` either returns an invoice
string or fails with an error (modelled by its message). -/
structure Backend where
  call : Nat → String → Except String String

/-- The body of the NWC `MakeInvoiceRequest` built by
`NwcInvoiceCreator::create_invoice`. -/
structure MakeInvoiceRequest where
  amount : Nat
  description : Option String
  description_hash : Option String
  expiry : Option Nat
  deriving DecidableEq, Repr

/-- The NWC `MakeInvoiceResponse`, of which the program reads only the
`invoice` field. -/
structure MakeInvoiceResponse where
  invoice : String
  deriving DecidableEq, Repr

/-- `NwcInvoiceCreator::create_invoice` (`src/invoice_creator/nwc.rs`):
build a `MakeInvoiceRequest` whose `amount` is the given `amount_msat`
unchanged and whose `description_hash` is `Some(description_hash)`, call
the wallet's `make_invoice`, and return the `invoice` field of the
response. `make_invoice` is the external NWC wallet call, passed as a
function. -/
def NwcInvoiceCreator.create_invoice
    (make_invoice : MakeInvoiceRequest → Except String MakeInvoiceResponse)
    (amount_msat : Nat) (description_hash : String) : Except String String :=
  (make_invoice
    { amount := amount_msat
      description := none
      description_hash := some description_hash
      expiry := none }).map MakeInvoiceResponse.invoice

/-! ## `src/config.rs` -/

/-- `ServerConfig`. -/
structure ServerConfig where
  domain : String
  listen_addr : String
  log_dir : String

/-- `UserConfig`: a username and its NWC connection strings. -/
structure UserConfig where
  name : String
  nwcs : List String

/-- `Config`. -/
structure Config where
  server : ServerConfig
  users : List UserConfig

/-- `Config::validate`: reject (with the first offending user's message)
any user configured with no NWC string. -/
def validateUsers : List UserConfig → Except String Unit
  | [] => .ok ()
  | u :: rest =>
    if u.nwcs = [] then .error ("user " ++ u.name ++ " has no NWC configured")
    else validateUsers rest

/-- `Config::validate`. -/
def Config.validate (c : Config) : Except String Unit :=
  validateUsers c.users

/-! ## `AppState` (`src/http_server.rs`) -/

/-- The user map: username to backend list. A `HashMap<String, _>` is
modelled as an association list with `HashMap::insert` semantics
(replace on key collision). -/
abbrev UserMap := List (String × List Backend)

/-- `HashMap::insert`. -/
def insertUser (name : String) (bs : List Backend) : UserMap → UserMap
  | [] => [(name, bs)]
  | (n, b) :: rest =>
    if n = name then (name, bs) :: rest else (n, b) :: insertUser name bs rest

/-- `HashMap::get` / `contains_key`. -/
def lookupUser (name : String) : UserMap → Option (List Backend)
  | [] => none
  | (n, b) :: rest => if n = name then some b else lookupUser name rest

/-- `AppState`: the process-wide state — public domain plus the user map. -/
structure AppState where
  domain : String
  users : UserMap

/-- `AppState::new`: domain from the server config; one map entry per
configured user, whose backends are the user's NWC strings turned into
invoice creators. `mkBackend` stands for `NwcInvoiceCreator::new`, whose
URI parsing is external (the `nwc` crate). -/
def AppState.new (mkBackend : String → Backend) (config : Config) : AppState :=
  { domain := config.server.domain
    users :=
      config.users.foldl
        (fun m u => insertUser u.name (u.nwcs.map mkBackend) m) [] }

/-! ## The handlers (`src/http_server.rs`) -/

/-- `generate_metadata`: the serde_json compact serialization of the
three-entry LUD-16 metadata array. -/
def generate_metadata (state : AppState) (username : String) : String :=
  renderArrayOfArrays
    [["text/identifier", username ++ "@" ++ state.domain],
     ["text/plain", "sats for " ++ username ++ "@" ++ state.domain],
     ["text/plain", "powered by https://github.com/yfaming/thor"]]

/-- The LUD-06 `payRequest` document (`LnUrlPayInfo`). -/
structure LnUrlPayInfo where
  callback : String
  max_sendable : Nat
  min_sendable : Nat
  metadata : String
  tag : String
  deriving DecidableEq, Repr

/-- `get_lnurlp_info`: 400 `user <name> not found` for an unknown
username, otherwise the payRequest document. -/
def get_lnurlp_info (state : AppState) (username : String) :
    Except HttpError LnUrlPayInfo :=
  if (lookupUser username state.users).isSome then
    .ok
      { callback := "https://" ++ state.domain ++ "/lnurlp/" ++ username
        max_sendable := 100000000000
        min_sendable := 1000
        metadata := generate_metadata state username
        tag := "payRequest" }
  else
    .error (HttpError.new 400 (Lud06Error.new ("user " ++ username ++ " not found")))

/-- The success body of the invoice endpoint (`InvoiceResponse`). -/
structure InvoiceResponse where
  pr : String
  routes : List String
  deriving DecidableEq, Repr

/-- The failover loop of `create_invoice`
(`for creator in creators.iter().take(3) ... match last_err`), started on
the already-truncated list with `last_err = None`. `none` models the
`unreachable!()` panic (empty list and no recorded error); otherwise the
first success returns `\x7bpr, routes: []\x7d` and exhaustion converts the
last error via `From<anyhow::Error> for HttpError`. -/
def invoiceLoop (amount : Nat) (description_hash : String) :
    List Backend → Option String → Option (Except HttpError InvoiceResponse)
  | [], none => none
  | [], some e => some (.error (httpErrorFromAnyhow e))
  | c :: rest, _last_err =>
    match c.call amount description_hash with
    | .ok invoice => some (.ok { pr := invoice, routes := [] })
    | .error e => invoiceLoop amount description_hash rest (some e)

/-- `create_invoice`: validate the amount, look up the user, shuffle the
backend list (the random permutation is the `shuffle` parameter), hash the
metadata, and run the failover loop on the first three backends. -/
def create_invoice (shuffle : List Backend → List Backend) (state : AppState)
    (username : String) (amount : Nat) :
    Option (Except HttpError InvoiceResponse) :=
  if amount = 0 then
    some (.error (HttpError.new 400 (Lud06Error.new "amount must > 0")))
  else
    match lookupUser username state.users with
    | some creators =>
      let creators := shuffle creators
      let metadata := generate_metadata state username
      let description_hash := sha256HexStr metadata
      invoiceLoop amount description_hash (creators.take 3) none
    | none =>
      some (.error (HttpError.new 400 (Lud06Error.new ("user " ++ username ++ " not found"))))

/-- One observed backend invocation inside the failover loop: the backend
called, the arguments it received, and its result. -/
structure Attempt where
  backend : Backend
  amount : Nat
  descriptionHash : String
  result : Except String String

/-- The sequence of backend invocations the failover loop performs on a
given list: one entry per iteration, stopping after the first success. -/
def invoiceAttempts (amount : Nat) (description_hash : String) :
    List Backend → List Attempt
  | [] => []
  | c :: rest =>
    match c.call amount description_hash with
    | .ok invoice =>
      [{ backend := c, amount := amount, descriptionHash := description_hash
         result := .ok invoice }]
    | .error e =>
      { backend := c, amount := amount, descriptionHash := description_hash
        result := .error e } :: invoiceAttempts amount description_hash rest

/-- The backend invocations `create_invoice` performs: none on the
validation / unknown-user early returns, otherwise those of the failover
loop on the first three shuffled backends. -/
def create_invoice_attempts (shuffle : List Backend → List Backend)
    (state : AppState) (username : String) (amount : Nat) : List Attempt :=
  if amount = 0 then []
  else
    match lookupUser username state.users with
    | some creators =>
      invoiceAttempts amount (sha256HexStr (generate_metadata state username))
        ((shuffle creators).take 3)
    | none => []

/-! ## The HTTP query layer (modelled from the spec)

The `amount` query parameter is parsed by axum's `Query<Amount>` extractor
and serde, which are dependencies, not code under `src/`. -/

/-- Decimal value of a digit string. -/
def decimalValue (s : String) : Nat :=
  s.data.foldl (fun acc c => acc * 10 + (c.toNat - 48)) 0

/-- Modelled from the spec: the HTTP framework's parsing of the `amount`
query parameter (axum's `Query<Amount>` extractor with a `u64` field, not
under `src/`): it "parses `amount` as an unsigned integer (malformed input
fails with a query-parsing error)". -/
def parse_amount_query (raw : String) : Option Nat :=
  if raw.length ≠ 0 ∧ raw.data.all Char.isDigit ∧ decimalValue raw < 2 ^ 64 then
    some (decimalValue raw)
  else none

/-- serde_json serialization of an `InvoiceResponse` (field order `pr`,
`routes`). -/
def renderInvoiceResponse (r : InvoiceResponse) : String :=
  "\x7b\"pr\":" ++ renderJsonString r.pr ++
    ",\"routes\":" ++ renderStringArray r.routes ++ "\x7d"

/-- Modelled from the spec: the invoice route as exposed by the HTTP
layer (the extractor-to-response glue is axum's, not under `src/`): a
query-parsing failure is "mapped to 400" and, per §7, every user-visible
failure is "a structured JSON body with the fixed two-field shape"; a
well-formed amount is handed to the `create_invoice` handler, whose
outcome is serialized as its JSON body. -/
def invoice_route (shuffle : List Backend → List Backend) (state : AppState)
    (username : String) (rawAmount : String) : Option HttpResponse :=
  match parse_amount_query rawAmount with
  | none =>
    some (HttpError.new 400
      (Lud06Error.new "failed to deserialize query string")).into_response
  | some amount =>
    (create_invoice shuffle state username amount).map fun r =>
      match r with
      | .ok invoice => { status := 200, body := renderInvoiceResponse invoice }
      | .error e => e.into_response

/-! ## Concrete fixtures (used by witnesses and counterexamples) -/

/-- The identity shuffle (one possible outcome of the random shuffle). -/
def idShuffle : List Backend → List Backend := fun l => l

/-- A backend that always succeeds with the invoice `"lnbc1test"` (the
`DummyCreator` of the repository's tests). -/
def okBackend : Backend :=
  { call := fun _ _ => .ok "lnbc1test" }

/-- A backend that always fails with message `"backend one down"`. -/
def failBackend1 : Backend :=
  { call := fun _ _ => .error "backend one down" }

/-- A backend that always fails with message `"backend two down"`. -/
def failBackend2 : Backend :=
  { call := fun _ _ => .error "backend two down" }

/-- A state with the single user `alice` backed by one succeeding backend,
on domain `example.com` (the repository's own test fixture). -/
def stateA : AppState :=
  { domain := "example.com", users := [("alice", [okBackend])] }

/-- A state whose single user `alice` has two failing backends. -/
def stateFail : AppState :=
  { domain := "example.com", users := [("alice", [failBackend1, failBackend2])] }

/-! ## Lemmas about the failover loop -/

/-- The loop performs no invocation on an empty list. -/
theorem invoiceAttempts_eq_nil_iff (amount : Nat) (dh : String)
    (l : List Backend) : invoiceAttempts amount dh l = [] ↔ l = [] := by
  cases l with
  | nil => simp [invoiceAttempts]
  | cons c rest =>
    simp only [invoiceAttempts]
    cases c.call amount dh <;> simp

/-- The backends the loop invokes are an initial segment of the list it
was given: each list position is invoked at most once, in order. -/
theorem invoiceAttempts_backends_prefixOf (amount : Nat) (dh : String)
    (l : List Backend) :
    (invoiceAttempts amount dh l).map Attempt.backend <+: l := by
  induction l with
  | nil => simp [invoiceAttempts]
  | cons c rest ih =>
    simp only [invoiceAttempts]
    cases c.call amount dh with
    | ok invoice => exact ⟨rest, rfl⟩
    | error e =>
      simp only [List.map_cons]
      exact (List.cons_prefix_cons).mpr ⟨rfl, ih⟩

/-- Every recorded attempt carries exactly the loop's arguments, and its
result is exactly what the recorded backend returns on them. -/
theorem invoiceAttempts_args (amount : Nat) (dh : String) :
    ∀ (l : List Backend), ∀ a ∈ invoiceAttempts amount dh l,
      a.amount = amount ∧ a.descriptionHash = dh ∧
        a.result = a.backend.call amount dh := by
  intro l
  induction l with
  | nil => simp [invoiceAttempts]
  | cons c rest ih =>
    intro a ha
    simp only [invoiceAttempts] at ha
    cases hc : c.call amount dh with
    | ok invoice =>
      rw [hc] at ha
      simp only [List.mem_singleton] at ha
      subst ha
      exact ⟨rfl, rfl, hc.symm⟩
    | error e =>
      rw [hc] at ha
      rcases List.mem_cons.mp ha with h | h
      · subst h
        exact ⟨rfl, rfl, hc.symm⟩
      · exact ih a h

/-- Only the final recorded attempt can succeed, and when it does the loop
returns immediately with exactly that invoice wrapped as
`\x7bpr, routes: []\x7d`, whatever error was previously recorded. -/
theorem invoiceLoop_of_attempt_ok (amount : Nat) (dh : String) :
    ∀ (l : List Backend) (init : Option String) (i : Nat) (att : Attempt)
      (invoice : String),
      (invoiceAttempts amount dh l)[i]? = some att →
      att.result = .ok invoice →
      i + 1 = (invoiceAttempts amount dh l).length ∧
      invoiceLoop amount dh l init = some (.ok { pr := invoice, routes := [] }) := by
  intro l
  induction l with
  | nil => simp [invoiceAttempts]
  | cons c rest ih =>
    intro init i att invoice hget hres
    cases hc : c.call amount dh with
    | ok inv0 =>
      have hatts : invoiceAttempts amount dh (c :: rest) =
          [⟨c, amount, dh, .ok inv0⟩] := by
        simp [invoiceAttempts, hc]
      rw [hatts] at hget ⊢
      cases i with
      | zero =>
        simp only [List.getElem?_cons_zero, Option.some.injEq] at hget
        subst hget
        simp only [Except.ok.injEq] at hres
        subst hres
        exact ⟨rfl, by simp [invoiceLoop, hc]⟩
      | succ j => simp at hget
    | error e =>
      have hatts : invoiceAttempts amount dh (c :: rest) =
          ⟨c, amount, dh, .error e⟩ :: invoiceAttempts amount dh rest := by
        simp [invoiceAttempts, hc]
      rw [hatts] at hget ⊢
      cases i with
      | zero =>
        simp only [List.getElem?_cons_zero, Option.some.injEq] at hget
        subst hget
        exact absurd hres (by simp)
      | succ j =>
        simp only [List.getElem?_cons_succ] at hget
        have := ih (some e) j att invoice hget hres
        refine ⟨by simp [← this.1], ?_⟩
        simpa [invoiceLoop, hc] using this.2

/-- When the loop runs on a nonempty list and every recorded attempt
fails, the loop's outcome is the 500 conversion of the last recorded
attempt's error. -/
theorem invoiceLoop_of_all_fail (amount : Nat) (dh : String) :
    ∀ (l : List Backend) (init : Option String), l ≠ [] →
      (∀ a ∈ invoiceAttempts amount dh l, ∃ e, a.result = .error e) →
      ∃ att e, (invoiceAttempts amount dh l).getLast? = some att ∧
        att.result = .error e ∧
        invoiceLoop amount dh l init = some (.error (httpErrorFromAnyhow e)) := by
  intro l
  induction l with
  | nil => intro init h; exact absurd rfl h
  | cons c rest ih =>
    intro init _ hfail
    cases hc : c.call amount dh with
    | ok inv0 =>
      exfalso
      have hmem : (⟨c, amount, dh, .ok inv0⟩ : Attempt) ∈
          invoiceAttempts amount dh (c :: rest) := by
        simp [invoiceAttempts, hc]
      rcases hfail _ hmem with ⟨e, he⟩
      exact absurd he (by simp)
    | error e =>
      have hatts : invoiceAttempts amount dh (c :: rest) =
          ⟨c, amount, dh, .error e⟩ :: invoiceAttempts amount dh rest := by
        simp [invoiceAttempts, hc]
      by_cases hne2 : rest = []
      · subst hne2
        refine ⟨⟨c, amount, dh, .error e⟩, e, ?_, rfl, ?_⟩
        · rw [hatts]; simp [invoiceAttempts]
        · simp [invoiceLoop, hc, httpErrorFromAnyhow]
      · have hfail2 : ∀ a ∈ invoiceAttempts amount dh rest, ∃ e0, a.result = .error e0 := by
          intro a ha
          exact hfail a (by rw [hatts]; exact List.mem_cons_of_mem _ ha)
        rcases ih (some e) hne2 hfail2 with ⟨att, e2, hlast, hres, hloop⟩
        refine ⟨att, e2, ?_, hres, ?_⟩
        · have hanil : invoiceAttempts amount dh rest ≠ [] := by
            rw [Ne, invoiceAttempts_eq_nil_iff]; exact hne2
          rcases List.exists_cons_of_ne_nil hanil with ⟨a2, l2, heq⟩
          rw [hatts, heq, List.getLast?_cons_cons, ← heq]
          exact hlast
        · simpa [invoiceLoop, hc] using hloop

/-- On a nonempty list (or with an error already recorded) the loop always
reaches a normal outcome: either some invoice wrapped as
`\x7bpr, routes: []\x7d`, or the 500 conversion of some backend error. -/
theorem invoiceLoop_total (amount : Nat) (dh : String) :
    ∀ (l : List Backend) (init : Option String),
      l ≠ [] ∨ init.isSome = true →
      (∃ invoice, invoiceLoop amount dh l init =
          some (.ok { pr := invoice, routes := [] })) ∨
      (∃ e, invoiceLoop amount dh l init =
          some (.error (httpErrorFromAnyhow e))) := by
  intro l
  induction l with
  | nil =>
    intro init h
    cases init with
    | none => rcases h with h | h
      <;> simp_all
    | some e => exact Or.inr ⟨e, rfl⟩
  | cons c rest ih =>
    intro init _
    cases hc : c.call amount dh with
    | ok inv0 =>
      exact Or.inl ⟨inv0, by simp [invoiceLoop, hc]⟩
    | error e =>
      have := ih (some e) (Or.inr rfl)
      rcases this with ⟨invoice, h⟩ | ⟨e2, h⟩
      · exact Or.inl ⟨invoice, by simpa [invoiceLoop, hc] using h⟩
      · exact Or.inr ⟨e2, by simpa [invoiceLoop, hc] using h⟩

/-- Every body the loop hands back on exhaustion is the
`From<anyhow::Error>` conversion of some backend error. -/
theorem invoiceLoop_error_shape (amount : Nat) (dh : String) :
    ∀ (l : List Backend) (init : Option String) (e : HttpError),
      invoiceLoop amount dh l init = some (.error e) →
      ∃ msg, e = httpErrorFromAnyhow msg := by
  intro l
  induction l with
  | nil =>
    intro init e h
    cases init with
    | none => simp [invoiceLoop] at h
    | some e0 =>
      simp only [invoiceLoop, Option.some.injEq, Except.error.injEq] at h
      exact ⟨e0, h.symm⟩
  | cons c rest ih =>
    intro init e h
    cases hc : c.call amount dh with
    | ok inv0 => simp [invoiceLoop, hc] at h
    | error e0 =>
      simp only [invoiceLoop, hc] at h
      exact ih (some e0) e h

/-! ## Lemmas about configuration validation and `AppState::new` -/

/-- A validated configuration has no user with an empty NWC list. -/
theorem validateUsers_ok (users : List UserConfig)
    (h : validateUsers users = .ok ()) :
    ∀ u ∈ users, u.nwcs ≠ [] := by
  induction users with
  | nil => simp
  | cons u rest ih =>
    intro v hv
    by_cases hu : u.nwcs = []
    · simp [validateUsers, hu] at h
    · simp only [validateUsers, hu, if_false] at h
      rcases List.mem_cons.mp hv with rfl | hv2
      · exact hu
      · exact ih h v hv2

/-- `HashMap::insert` introduces only the inserted pair. -/
theorem mem_insertUser (name : String) (bs : List Backend) :
    ∀ (m : UserMap) (p : String × List Backend), p ∈ insertUser name bs m →
      p = (name, bs) ∨ p ∈ m := by
  intro m
  induction m with
  | nil =>
    intro p hp
    simp only [insertUser, List.mem_singleton] at hp
    exact Or.inl hp
  | cons q rest ih =>
    intro p hp
    by_cases hq : q.1 = name
    · simp only [insertUser] at hp
      rcases q with ⟨n, b⟩
      rw [if_pos hq] at hp
      rcases List.mem_cons.mp hp with rfl | hp2
      · exact Or.inl rfl
      · exact Or.inr (List.mem_cons_of_mem _ hp2)
    · rcases q with ⟨n, b⟩
      simp only [insertUser, if_neg hq] at hp
      rcases List.mem_cons.mp hp with rfl | hp2
      · exact Or.inr (List.mem_cons_self _ _)
      · rcases ih p hp2 with h | h
        · exact Or.inl h
        · exact Or.inr (List.mem_cons_of_mem _ h)

/-- Looking a name up in the user map finds a pair of the map. -/
theorem lookupUser_mem (name : String) :
    ∀ (m : UserMap) (bs : List Backend), lookupUser name m = some bs →
      (name, bs) ∈ m := by
  intro m
  induction m with
  | nil => intro bs h; simp [lookupUser] at h
  | cons q rest ih =>
    intro bs h
    rcases q with ⟨n, b⟩
    by_cases hn : n = name
    · simp only [lookupUser, if_pos hn] at h
      subst hn
      rw [Option.some.injEq] at h
      subst h
      exact List.mem_cons_self _ _
    · simp only [lookupUser, if_neg hn] at h
      exact List.mem_cons_of_mem _ (ih bs h)

/-- The load-time invariant: after `Config::validate` succeeds, every
entry of the user map built by `AppState::new` has a nonempty backend
list. -/
theorem appState_new_backends_ne_nil (mkBackend : String → Backend)
    (config : Config) (hv : config.validate = .ok ()) :
    ∀ p ∈ (AppState.new mkBackend config).users, p.2 ≠ [] := by
  have husers := validateUsers_ok config.users hv
  have key : ∀ (us : List UserConfig) (m : UserMap),
      (∀ u ∈ us, u.nwcs ≠ []) → (∀ p ∈ m, p.2 ≠ []) →
      ∀ p ∈ us.foldl (fun m u => insertUser u.name (u.nwcs.map mkBackend) m) m,
        p.2 ≠ [] := by
    intro us
    induction us with
    | nil => intro m _ hm; simpa using hm
    | cons u rest ih =>
      intro m hus hm
      refine ih _ (fun v hv2 => hus v (List.mem_cons_of_mem _ hv2)) ?_
      intro p hp
      rcases mem_insertUser u.name (u.nwcs.map mkBackend) m p hp with rfl | hp2
      · intro h
        exact hus u (List.mem_cons_self _ _)
          (List.map_eq_nil_iff.mp (h : List.map mkBackend u.nwcs = []))
      · exact hm p hp2
  exact key config.users [] husers (by simp)

/-! ## The claims -/

/-- C1: for every username present in the state, the metadata string the
info endpoint returns is the same string the invoice endpoint hashes
(both call `generate_metadata`), and the `description_hash` handed to
every backend attempt is the hex-encoded SHA-256 digest of that metadata
string. -/
theorem metadata_hash_consistency (shuffle : List Backend → List Backend)
    (state : AppState) (username : String) (amount : Nat)
    (h : (lookupUser username state.users).isSome = true) :
    ∃ info, get_lnurlp_info state username = .ok info ∧
      info.metadata = generate_metadata state username ∧
      ∀ a ∈ create_invoice_attempts shuffle state username amount,
        a.descriptionHash = sha256HexStr info.metadata := by
  refine ⟨{ callback := "https://" ++ state.domain ++ "/lnurlp/" ++ username,
            max_sendable := 100000000000, min_sendable := 1000,
            metadata := generate_metadata state username, tag := "payRequest" },
          by simp [get_lnurlp_info, h], rfl, ?_⟩
  intro a ha
  by_cases h0 : amount = 0
  · simp [create_invoice_attempts, h0] at ha
  · rcases Option.isSome_iff_exists.mp h with ⟨creators, hcr⟩
    simp only [create_invoice_attempts, h0, if_false, hcr] at ha
    exact (invoiceAttempts_args _ _ _ a ha).2.1

/-- C1 witness: the theorem at the repository's own test fixture
(`alice` at `example.com`, amount 1500). -/
theorem metadata_hash_consistency_witness :
    (lookupUser "alice" stateA.users).isSome = true ∧
    ∃ info, get_lnurlp_info stateA "alice" = .ok info ∧
      info.metadata = generate_metadata stateA "alice" ∧
      ∀ a ∈ create_invoice_attempts idShuffle stateA "alice" 1500,
        a.descriptionHash = sha256HexStr info.metadata :=
  ⟨rfl, metadata_hash_consistency idShuffle stateA "alice" 1500 rfl⟩

/-- C2: with a known username and positive amount, the backends invoked
are an initial segment of the first three shuffled backends (hence at
most 3, at most the user's count, and — whenever the shuffled list has no
duplicates — each backend at most once), and a successful attempt is
always the final one, whose
invoice is returned as `\x7bpr, routes: []\x7d`. -/
theorem create_invoice_failover_bound (shuffle : List Backend → List Backend)
    (state : AppState) (username : String) (amount : Nat)
    (creators : List Backend)
    (hu : lookupUser username state.users = some creators)
    (ha : amount ≠ 0)
    (hperm : (shuffle creators).Perm creators) :
    (create_invoice_attempts shuffle state username amount).map Attempt.backend
        <+: (shuffle creators).take 3 ∧
    (create_invoice_attempts shuffle state username amount).length ≤ 3 ∧
    (create_invoice_attempts shuffle state username amount).length ≤
      creators.length ∧
    ((shuffle creators).Nodup →
      ((create_invoice_attempts shuffle state username amount).map
        Attempt.backend).Nodup) ∧
    ∀ (i : Nat) (att : Attempt) (invoice : String),
      (create_invoice_attempts shuffle state username amount)[i]? = some att →
      att.result = .ok invoice →
      i + 1 = (create_invoice_attempts shuffle state username amount).length ∧
      create_invoice shuffle state username amount =
        some (.ok { pr := invoice, routes := [] }) := by
  have hatts : create_invoice_attempts shuffle state username amount =
      invoiceAttempts amount (sha256HexStr (generate_metadata state username))
        ((shuffle creators).take 3) := by
    simp [create_invoice_attempts, ha, hu]
  have hpre := invoiceAttempts_backends_prefixOf amount
    (sha256HexStr (generate_metadata state username)) ((shuffle creators).take 3)
  have hlen : (create_invoice_attempts shuffle state username amount).length ≤
      min 3 (shuffle creators).length := by
    rw [hatts]
    have := hpre.length_le
    simpa [List.length_take] using this
  refine ⟨by rw [hatts]; exact hpre, ?_, ?_, ?_, ?_⟩
  · exact le_trans hlen (min_le_left _ _)
  · calc (create_invoice_attempts shuffle state username amount).length
        ≤ (shuffle creators).length := le_trans hlen (min_le_right _ _)
      _ = creators.length := hperm.length_eq
  · intro hnd
    rw [hatts]
    exact ((invoiceAttempts_backends_prefixOf _ _ _).sublist).nodup
      (hnd.sublist (List.take_sublist _ _))
  · intro i att invoice hget hok
    rw [hatts] at hget ⊢
    have := invoiceLoop_of_attempt_ok amount
      (sha256HexStr (generate_metadata state username))
      ((shuffle creators).take 3) none i att invoice hget hok
    refine ⟨this.1, ?_⟩
    rw [show create_invoice shuffle state username amount =
      invoiceLoop amount (sha256HexStr (generate_metadata state username))
        ((shuffle creators).take 3) none by simp [create_invoice, ha, hu]]
    exact this.2

/-- C2 witness: the theorem at the single-backend fixture. -/
theorem create_invoice_failover_bound_witness :
    lookupUser "alice" stateA.users = some [okBackend] ∧ 1500 ≠ 0 ∧
    (create_invoice_attempts idShuffle stateA "alice" 1500).length ≤ 3 :=
  ⟨rfl, by decide,
    (create_invoice_failover_bound idShuffle stateA "alice" 1500 [okBackend]
      rfl (by decide) (List.Perm.refl _)).2.1⟩

/-- C3: when every performed backend attempt fails, `create_invoice`
results in the `From<anyhow::Error>` conversion of the last attempt's
error: HTTP 500 with the structured body wrapping that error's message. -/
theorem create_invoice_all_backends_failed
    (shuffle : List Backend → List Backend) (state : AppState)
    (username : String) (amount : Nat) (creators : List Backend)
    (hu : lookupUser username state.users = some creators)
    (ha : amount ≠ 0)
    (hne : create_invoice_attempts shuffle state username amount ≠ [])
    (hfail : ∀ a ∈ create_invoice_attempts shuffle state username amount,
      ∃ e, a.result = .error e) :
    ∃ att e,
      (create_invoice_attempts shuffle state username amount).getLast? =
        some att ∧
      att.result = .error e ∧
      create_invoice shuffle state username amount =
        some (.error (httpErrorFromAnyhow e)) ∧
      (httpErrorFromAnyhow e).into_response =
        { status := 500, body := renderLud06 { status := "ERROR", reason := e } } := by
  have hatts : create_invoice_attempts shuffle state username amount =
      invoiceAttempts amount (sha256HexStr (generate_metadata state username))
        ((shuffle creators).take 3) := by
    simp [create_invoice_attempts, ha, hu]
  rw [hatts] at hne hfail
  have hl3 : (shuffle creators).take 3 ≠ [] := by
    intro h
    rw [h] at hne
    exact hne (by simp [invoiceAttempts])
  rcases invoiceLoop_of_all_fail amount
      (sha256HexStr (generate_metadata state username))
      ((shuffle creators).take 3) none hl3 hfail with ⟨att, e, hlast, hres, hloop⟩
  refine ⟨att, e, by rw [hatts]; exact hlast, hres, ?_, rfl⟩
  rw [show create_invoice shuffle state username amount =
    invoiceLoop amount (sha256HexStr (generate_metadata state username))
      ((shuffle creators).take 3) none by simp [create_invoice, ha, hu]]
  exact hloop

/-- C3 witness: both backends of the two-backend fixture fail; the
outcome is the 500 conversion of the second backend's error. -/
theorem create_invoice_all_backends_failed_witness :
    lookupUser "alice" stateFail.users = some [failBackend1, failBackend2] ∧
    ∃ att e,
      (create_invoice_attempts idShuffle stateFail "alice" 1500).getLast? =
        some att ∧
      att.result = .error e ∧
      create_invoice idShuffle stateFail "alice" 1500 =
        some (.error (httpErrorFromAnyhow e)) ∧
      (httpErrorFromAnyhow e).into_response =
        { status := 500, body := renderLud06 { status := "ERROR", reason := e } } :=
  ⟨rfl,
    create_invoice_all_backends_failed idShuffle stateFail "alice" 1500
      [failBackend1, failBackend2] rfl (by decide) (List.cons_ne_nil _ _)
      (by
        intro a ha
        have hlist : create_invoice_attempts idShuffle stateFail "alice" 1500 =
            [⟨failBackend1, 1500,
              sha256HexStr (generate_metadata stateFail "alice"),
              .error "backend one down"⟩,
             ⟨failBackend2, 1500,
              sha256HexStr (generate_metadata stateFail "alice"),
              .error "backend two down"⟩] := rfl
        rw [hlist] at ha
        rcases List.mem_cons.mp ha with rfl | ha2
        · exact ⟨"backend one down", rfl⟩
        · rcases List.mem_singleton.mp ha2 with rfl
          exact ⟨"backend two down", rfl⟩)⟩

/-- C4: an invoice request with amount 0 fails with 400 and the reason
`amount must > 0`, and no backend is invoked. -/
theorem create_invoice_zero_amount (shuffle : List Backend → List Backend)
    (state : AppState) (username : String) :
    create_invoice shuffle state username 0 =
      some (.error (HttpError.new 400 (Lud06Error.new "amount must > 0"))) ∧
    create_invoice_attempts shuffle state username 0 = [] ∧
    (HttpError.new 400 (Lud06Error.new "amount must > 0")).into_response.status
      = 400 ∧
    (Lud06Error.new "amount must > 0").reason = "amount must > 0" :=
  ⟨rfl, rfl, rfl, rfl⟩

/-- C5 counterexample: for a username absent from the state, the invoice
endpoint called with amount 0 answers with reason `amount must > 0`, not
with `user bob not found` — the amount validation precedes the user
lookup, so the claim does not hold for every request to the invoice
endpoint. -/
theorem unknown_user_zero_amount_cex :
    lookupUser "bob" stateA.users = none ∧
    create_invoice idShuffle stateA "bob" 0 =
      some (.error (HttpError.new 400 (Lud06Error.new "amount must > 0"))) ∧
    (Lud06Error.new "amount must > 0").reason ≠ "user bob not found" :=
  ⟨rfl, rfl, by decide⟩

/-- C5 (amended): for a username absent from the state, the info endpoint
always — and the invoice endpoint whenever the requested amount is
nonzero — answers 400 with the structured body whose reason is
`user <name> not found`. -/
theorem unknown_user_not_found (shuffle : List Backend → List Backend)
    (state : AppState) (username : String) (amount : Nat)
    (habs : lookupUser username state.users = none)
    (ha : amount ≠ 0) :
    get_lnurlp_info state username =
      .error (HttpError.new 400
        (Lud06Error.new ("user " ++ username ++ " not found"))) ∧
    create_invoice shuffle state username amount =
      some (.error (HttpError.new 400
        (Lud06Error.new ("user " ++ username ++ " not found")))) ∧
    (HttpError.new 400
      (Lud06Error.new ("user " ++ username ++ " not found"))).into_response =
      { status := 400,
        body := renderLud06
          { status := "ERROR", reason := "user " ++ username ++ " not found" } } := by
  refine ⟨?_, ?_, rfl⟩
  · simp [get_lnurlp_info, habs]
  · simp [create_invoice, habs, ha]

/-- C5 witness: the amended theorem at the fixture state, username `bob`,
amount 1500. -/
theorem unknown_user_not_found_witness :
    lookupUser "bob" stateA.users = none ∧ (1500 : Nat) ≠ 0 ∧
    get_lnurlp_info stateA "bob" =
      .error (HttpError.new 400 (Lud06Error.new "user bob not found")) :=
  ⟨rfl, by decide,
    (unknown_user_not_found idShuffle stateA "bob" 1500 rfl (by decide)).1⟩

/-- C6: the metadata generator output is the compact JSON serialization
of exactly three `[mime, content]` pairs in this exact order — the
identifier entry, the `sats for` entry, and the fixed attribution entry;
at the test fixture the serialized string is spelled out in full. -/
theorem generate_metadata_exact_entries (state : AppState) (username : String) :
    generate_metadata state username =
      renderArrayOfArrays
        [["text/identifier", username ++ "@" ++ state.domain],
         ["text/plain", "sats for " ++ username ++ "@" ++ state.domain],
         ["text/plain", "powered by https://github.com/yfaming/thor"]] ∧
    generate_metadata stateA "alice" =
      "[[\"text/identifier\",\"alice@example.com\"],[\"text/plain\",\"sats for alice@example.com\"],[\"text/plain\",\"powered by https://github.com/yfaming/thor\"]]" :=
  ⟨rfl, by decide⟩

/-- C7: for a username present in the state, the info endpoint succeeds
with exactly the LUD-06 document: the callback URL, the fixed sendable
bounds, the generated metadata and the `payRequest` tag. -/
theorem info_endpoint_success_doc (state : AppState) (username : String)
    (h : (lookupUser username state.users).isSome = true) :
    get_lnurlp_info state username = .ok
      { callback := "https://" ++ state.domain ++ "/lnurlp/" ++ username
        max_sendable := 100000000000
        min_sendable := 1000
        metadata := generate_metadata state username
        tag := "payRequest" } := by
  simp [get_lnurlp_info, h]

/-- C7 witness: the info endpoint document for `alice` at `example.com`. -/
theorem info_endpoint_success_doc_witness :
    (lookupUser "alice" stateA.users).isSome = true ∧
    get_lnurlp_info stateA "alice" = .ok
      { callback := "https://example.com/lnurlp/alice"
        max_sendable := 100000000000
        min_sendable := 1000
        metadata := generate_metadata stateA "alice"
        tag := "payRequest" } :=
  ⟨rfl, info_endpoint_success_doc stateA "alice" rfl⟩

/-- The fixed two-field error shape of §7: a JSON object with `status`
literally `"ERROR"` and a `reason` string — never a bare text page. -/
def isStructuredErrorBody (body : String) : Prop :=
  ∃ reason,
    body = "\x7b\"status\":\"ERROR\",\"reason\":" ++ renderJsonString reason ++ "\x7d"

/-- C8: every failure either endpoint produces — including the
spec-modelled 400 mapping of a malformed `amount` query parameter —
carries the structured two-field JSON body with status `"ERROR"`. -/
theorem error_responses_structured (shuffle : List Backend → List Backend)
    (state : AppState) (username : String) (amount : Nat)
    (rawAmount : String) :
    (∀ e, get_lnurlp_info state username = .error e →
      e.into_response.status = e.status_code ∧
      isStructuredErrorBody e.into_response.body) ∧
    (∀ e, create_invoice shuffle state username amount = some (.error e) →
      e.into_response.status = e.status_code ∧
      isStructuredErrorBody e.into_response.body) ∧
    (parse_amount_query rawAmount = none →
      ∃ resp, invoice_route shuffle state username rawAmount = some resp ∧
        resp.status = 400 ∧ isStructuredErrorBody resp.body) := by
  refine ⟨?_, ?_, ?_⟩
  · intro e he
    by_cases h : (lookupUser username state.users).isSome = true
    · simp [get_lnurlp_info, h] at he
    · simp only [get_lnurlp_info] at he
      rw [if_neg h, Except.error.injEq] at he
      subst he
      exact ⟨rfl, "user " ++ username ++ " not found", rfl⟩
  · intro e he
    by_cases h0 : amount = 0
    · simp only [create_invoice, h0, if_true, if_pos rfl, Option.some.injEq,
        Except.error.injEq] at he
      subst he
      exact ⟨rfl, "amount must > 0", rfl⟩
    · cases hcr : lookupUser username state.users with
      | none =>
        simp only [create_invoice, h0, if_false, hcr, Option.some.injEq,
          Except.error.injEq] at he
        subst he
        exact ⟨rfl, "user " ++ username ++ " not found", rfl⟩
      | some creators =>
        simp only [create_invoice, h0, if_false, hcr] at he
        rcases invoiceLoop_error_shape _ _ _ _ _ he with ⟨msg, rfl⟩
        exact ⟨rfl, msg, rfl⟩
  · intro hp
    exact ⟨(HttpError.new 400
        (Lud06Error.new "failed to deserialize query string")).into_response,
      by simp [invoice_route, hp], rfl,
      "failed to deserialize query string", rfl⟩

/-- C8 witness: the malformed query string `abc` is mapped to a 400
response with the structured error body. -/
theorem error_responses_structured_witness :
    parse_amount_query "abc" = none ∧
    ∃ resp, invoice_route idShuffle stateA "alice" "abc" = some resp ∧
      resp.status = 400 ∧ isStructuredErrorBody resp.body :=
  ⟨by decide,
    (error_responses_structured idShuffle stateA "alice" 1500 "abc").2.2
      (by decide)⟩

/-- C9: under the load-time invariant (a validated configuration), a
request with a known username and positive amount never reaches the
`unreachable!()` arm: it yields either an invoice response or the 500
conversion of a backend failure. -/
theorem validated_config_no_panic (mkBackend : String → Backend)
    (config : Config) (shuffle : List Backend → List Backend)
    (username : String) (amount : Nat) (creators : List Backend)
    (hv : config.validate = .ok ())
    (hu : lookupUser username (AppState.new mkBackend config).users =
      some creators)
    (hperm : (shuffle creators).Perm creators)
    (ha : amount ≠ 0) :
    ∃ r, create_invoice shuffle (AppState.new mkBackend config) username amount
        = some r ∧
      ((∃ invoice, r = .ok { pr := invoice, routes := [] }) ∨
       (∃ e, r = .error (httpErrorFromAnyhow e))) := by
  have hcrne : creators ≠ [] :=
    appState_new_backends_ne_nil mkBackend config hv (username, creators)
      (lookupUser_mem username _ creators hu)
  have hsne : shuffle creators ≠ [] := by
    intro h
    exact hcrne (List.eq_nil_of_length_eq_zero (by
      rw [← hperm.length_eq, h, List.length_nil]))
  have htne : (shuffle creators).take 3 ≠ [] := by
    rw [Ne, List.take_eq_nil_iff]
    simp [hsne]
  have hcc : create_invoice shuffle (AppState.new mkBackend config) username
      amount = invoiceLoop amount
        (sha256HexStr (generate_metadata (AppState.new mkBackend config) username))
        ((shuffle creators).take 3) none := by
    simp [create_invoice, ha, hu]
  rcases invoiceLoop_total amount
      (sha256HexStr (generate_metadata (AppState.new mkBackend config) username))
      ((shuffle creators).take 3) none (Or.inl htne) with ⟨invoice, h⟩ | ⟨e, h⟩
  · exact ⟨_, by rw [hcc]; exact h, Or.inl ⟨invoice, rfl⟩⟩
  · exact ⟨_, by rw [hcc]; exact h, Or.inr ⟨e, rfl⟩⟩

/-- A backend constructor standing in for `NwcInvoiceCreator::new` on the
witness configuration: every connection string yields the succeeding
backend. -/
def mkOk : String → Backend := fun _ => okBackend

/-- A validated configuration with the single user `alice` and one NWC
connection string (the repository's own config test fixture). -/
def configA : Config :=
  { server :=
      { domain := "example.com", listen_addr := "127.0.0.1:8080",
        log_dir := "/tmp/thor" }
    users := [{ name := "alice", nwcs := ["nwc://example"] }] }

/-- C9 witness: the theorem at the validated one-user configuration. -/
theorem validated_config_no_panic_witness :
    configA.validate = .ok () ∧
    lookupUser "alice" (AppState.new mkOk configA).users = some [okBackend] ∧
    ∃ r, create_invoice idShuffle (AppState.new mkOk configA) "alice" 1500
        = some r ∧
      ((∃ invoice, r = .ok { pr := invoice, routes := [] }) ∨
       (∃ e, r = .error (httpErrorFromAnyhow e))) :=
  ⟨rfl, rfl,
    validated_config_no_panic mkOk configA idShuffle "alice" 1500 [okBackend]
      rfl rfl (List.Perm.refl _) (by decide)⟩

/-- C10: the amount parsed from the query string reaches every backend
attempt unchanged (and each attempt's result is the backend applied to
exactly that amount and hash), the route hands the parsed amount to the
handler unchanged, and the NWC creator forwards its `amount_msat`
argument unchanged as the request's invoice amount — no unit conversion
anywhere. -/
theorem amount_passed_unchanged (shuffle : List Backend → List Backend)
    (state : AppState) (username : String) (rawAmount : String) (amount : Nat)
    (make_invoice : MakeInvoiceRequest → Except String MakeInvoiceResponse)
    (hparse : parse_amount_query rawAmount = some amount) :
    invoice_route shuffle state username rawAmount =
      ((create_invoice shuffle state username amount).map fun r =>
        match r with
        | .ok invoice => { status := 200, body := renderInvoiceResponse invoice }
        | .error e => e.into_response) ∧
    (∀ a ∈ create_invoice_attempts shuffle state username amount,
      a.amount = amount ∧ a.result = a.backend.call amount a.descriptionHash) ∧
    ∀ (amt : Nat) (dh : String), ∃ req,
      NwcInvoiceCreator.create_invoice make_invoice amt dh =
        (make_invoice req).map MakeInvoiceResponse.invoice ∧
      req.amount = amt ∧ req.description_hash = some dh := by
  refine ⟨by simp [invoice_route, hparse], ?_, ?_⟩
  · intro a ha
    by_cases h0 : amount = 0
    · simp [create_invoice_attempts, h0] at ha
    · cases hcr : lookupUser username state.users with
      | none => simp [create_invoice_attempts, h0, hcr] at ha
      | some creators =>
        simp only [create_invoice_attempts, h0, if_false, hcr] at ha
        rcases invoiceAttempts_args _ _ _ a ha with ⟨ham, hdh, hres⟩
        exact ⟨ham, by rw [hres, hdh]⟩
  · intro amt dh
    exact ⟨_, rfl, rfl, rfl⟩

/-- C10 witness: the theorem at raw amount `"1500"` and an NWC wallet
that always succeeds. -/
theorem amount_passed_unchanged_witness :
    parse_amount_query "1500" = some 1500 ∧
    ∀ a ∈ create_invoice_attempts idShuffle stateA "alice" 1500,
      a.amount = 1500 ∧ a.result = a.backend.call 1500 a.descriptionHash :=
  ⟨by decide,
    (amount_passed_unchanged idShuffle stateA "alice" "1500" 1500
      (fun _ => .ok { invoice := "lnbc1test" }) (by decide)).2.1⟩

/-! ## Sanity checks of the embedding -/

set_option maxRecDepth 4000 in
/-- The embedded SHA-256 agrees with the FIPS 180-2 test vector for
`"abc"`, so the `description_hash` computation is the real digest. -/
theorem sha256HexStr_test_vector :
    sha256HexStr "abc" =
      "ba7816bf8f01cfea414140de5dae2223b00361a396177a9cb410ff61f20015ad" := by
  decide

/-- The repository's own end-to-end test: one succeeding backend, amount
1500, yields the invoice `lnbc1test` with empty routes. -/
theorem create_invoice_returns_invoice_test :
    create_invoice idShuffle stateA "alice" 1500 =
      some (.ok { pr := "lnbc1test", routes := [] }) := rfl
